import Mathlib

/-
Verification of the pattern-matching dispatcher and the Option/Result
container types of the `results` library.

The dispatcher `match` (src/src/helpers/match.ts, lines 115-225) classifies
its subject at runtime and routes to exactly one caller-supplied handler.
Its behaviour depends on JavaScript runtime semantics, so the embedding
models the relevant fragment of the JavaScript value model:

* property keys are strings or symbols; property access with a number key
  converts the number to its canonical decimal string (ToPropertyKey);
* `typeof null` is "object", so the source guards object branches with
  `typeof matcher === "object" && matcher !== null`;
* the `in` operator finds properties on the object itself and on its
  prototype chain; property reads fall back to the prototype chain and
  yield `undefined` when the key is absent everywhere;
* `for (const key in cases)` enumerates string keys only (symbols are
  skipped), array-index-like keys first in ascending numeric order, then
  the remaining string keys in insertion order;
* calling a function with no arguments binds its parameter to `undefined`.

Objects are modelled with their own properties, the flattened prototype
chain properties, and - because the dispatcher calls the capability
methods `isOk`/`isErr`/`isSome`/`isNone` and the accessors
`unwrap`/`unwrapErr` on them - the boolean results those four methods
return when called and the values the two accessors return.  Numbers are
modelled as integers (the claims under verification involve no fractional
values; the number-to-string conversion of integers matches JavaScript).
-/

namespace Results

/-- JavaScript property keys: strings or symbols. Number-valued keys do not
exist at runtime; `ToPropertyKey` converts numbers to their canonical decimal
string, which `toPropKey` below implements. Symbols are identified by a
numeric id standing for their identity. -/
inductive PropKey where
  | str (s : String)
  | sym (i : Nat)
deriving DecidableEq, Repr

/-- JavaScript runtime values, restricted to what the dispatcher inspects.
An object `vobj own proto isOkB isErrB isSomeB isNoneB unwrapV unwrapErrV`
carries its own properties, its flattened prototype-chain properties, the
boolean each capability method returns when called (consulted by `match`
only after an `in` check finds the method's key on the object), and the
values `unwrap()` / `unwrapErr()` return. `vfun` is an opaque function
value (method implementations stored as properties). -/
inductive JSVal where
  | vstr (s : String)
  | vnum (n : Int)
  | vsym (i : Nat)
  | vbool (b : Bool)
  | vnull
  | vundefined
  | vfun (tag : Nat)
  | vobj (own proto : List (PropKey × JSVal))
      (isOkB isErrB isSomeB isNoneB : Bool) (unwrapV unwrapErrV : JSVal)

/-- Lookup of a property in a property list: first entry with the key. -/
def plookup (props : List (PropKey × JSVal)) (k : PropKey) : Option JSVal :=
  match props with
  | [] => none
  | (k', v) :: rest => if k' = k then some v else plookup rest k

/-- The JavaScript `in` operator on an object given by its own properties and
its flattened prototype chain: true when the key is found on either. -/
def keyIn (own proto : List (PropKey × JSVal)) (k : PropKey) : Bool :=
  (plookup own k).isSome || (plookup proto k).isSome

/-- Property read `obj[k]`: own properties shadow the prototype chain; a key
found nowhere yields `undefined`. -/
def getProp (own proto : List (PropKey × JSVal)) (k : PropKey) : JSVal :=
  match plookup own k with
  | some v => v
  | none =>
    match plookup proto k with
    | some v => v
    | none => JSVal.vundefined

/-- The JavaScript `typeof` operator on the embedded values. Note that
`typeof null` is "object". -/
def typeof : JSVal → String
  | .vstr _ => "string"
  | .vnum _ => "number"
  | .vsym _ => "symbol"
  | .vbool _ => "boolean"
  | .vnull => "object"
  | .vundefined => "undefined"
  | .vfun _ => "function"
  | .vobj _ _ _ _ _ _ _ _ => "object"

/-- Guard of line 121-125 of match.ts:
`typeof matcher === "string" || typeof matcher === "number" || typeof matcher === "symbol"`. -/
def isPrim (m : JSVal) : Bool :=
  typeof m == "string" || typeof m == "number" || typeof m == "symbol"

/-- Guard `typeof matcher === "object" && matcher !== null`: by the `typeof`
table this holds exactly for `vobj` values (`vnull` has typeof "object" but
is excluded by the null test). -/
def isObjNonNull : JSVal → Bool
  | .vobj _ _ _ _ _ _ _ _ => true
  | _ => false

/-- JavaScript `String(v)` for the embedded values, as used in the error
messages of match.ts. For integers Lean's decimal rendering coincides with
JavaScript's; object and function conversions are abbreviated to their
generic forms (the claims never depend on them). -/
def jsToString : JSVal → String
  | .vstr s => s
  | .vnum n => toString n
  | .vsym i => "Symbol(" ++ toString i ++ ")"
  | .vbool b => if b then "true" else "false"
  | .vnull => "null"
  | .vundefined => "undefined"
  | .vfun _ => "function"
  | .vobj _ _ _ _ _ _ _ _ => "[object Object]"

/-- JavaScript `ToPropertyKey`: symbols pass through unchanged, everything
else is converted to a string. In particular a number becomes its canonical
decimal string, so `cases[42]` and `cases["42"]` denote the same property. -/
def toPropKey : JSVal → PropKey
  | .vsym i => .sym i
  | v => .str (jsToString v)

/-- One entry of a case table: the property key it is stored under and the
handler function. All claims under verification concern tables whose entries
are functions, so entries are modelled as functions of one argument - a
JavaScript call with no arguments binds the parameter to `undefined`, which
the embedding renders as application to `JSVal.vundefined`. -/
structure CaseEntry (R : Type) where
  key : PropKey
  fn : JSVal → R

/-- Property lookup on the case-table object (`cases[k]`): first entry with
the key. A real object literal has at most one property per key. -/
def casesLookup {R : Type} (cases : List (CaseEntry R)) (k : PropKey) :
    Option (JSVal → R) :=
  match cases with
  | [] => none
  | e :: rest => if e.key = k then some e.fn else casesLookup rest k

/-- Truthiness of the optional `discriminant` argument, as tested by the
guards `!discriminant` (line 141) and `discriminant && ...` (line 163):
absent and the empty string are falsy, every other key is truthy.
(Discriminant names are property keys, i.e. strings or symbols.) -/
def keyTruthy : Option PropKey → Bool
  | none => false
  | some (.str s) => !(s == "")
  | some (.sym _) => true

/-- Value of a decimal digit character. -/
def charDigit (c : Char) : Option Nat :=
  if c = '0' then some 0
  else if c = '1' then some 1
  else if c = '2' then some 2
  else if c = '3' then some 3
  else if c = '4' then some 4
  else if c = '5' then some 5
  else if c = '6' then some 6
  else if c = '7' then some 7
  else if c = '8' then some 8
  else if c = '9' then some 9
  else none

/-- Value of a list of decimal digit characters, most significant first;
none when any character is not a digit. -/
def digitsVal (acc : Nat) : List Char → Option Nat
  | [] => some acc
  | c :: cs =>
    match charDigit c with
    | some d => digitsVal (acc * 10 + d) cs
    | none => none

/-- Canonical array-index test: a string key that is the canonical decimal
spelling (digits only, no leading zero) of a natural number below 2^32 - 1.
Such keys are enumerated first and in ascending order by `for..in`. -/
def arrayIndex : PropKey → Option Nat
  | .sym _ => none
  | .str s =>
    match s.data with
    | [] => none
    | c :: cs =>
      if c = '0' ∧ cs ≠ [] then none
      else
        match digitsVal 0 (c :: cs) with
        | some n => if n < 4294967295 then some n else none
        | none => none

/-- Insertion into a list sorted by ascending first component. -/
def insertAsc (p : Nat × PropKey) : List (Nat × PropKey) → List (Nat × PropKey)
  | [] => [p]
  | q :: rest => if p.1 < q.1 then p :: q :: rest else q :: insertAsc p rest

/-- Insertion sort by ascending first component. -/
def sortAsc : List (Nat × PropKey) → List (Nat × PropKey)
  | [] => []
  | p :: rest => insertAsc p (sortAsc rest)

/-- Enumeration order of `for (const key in cases)` over the case table's
keys (given in insertion order): array-index-like keys first in ascending
numeric order, then the remaining string keys in insertion order; symbol
keys are not enumerated. -/
def enumKeys (ks : List PropKey) : List PropKey :=
  (sortAsc (ks.filterMap (fun k => (arrayIndex k).map (fun n => (n, k))))).map (·.2)
    ++ ks.filter (fun k =>
        match k with
        | .str _ => (arrayIndex k).isNone
        | .sym _ => false)

/-- Dispatch outcome: the value returned or the message of the thrown error,
paired with the list of handler invocations performed - each invocation
recorded as the case-table key of the handler and the argument it received. -/
abbrev MatchResult (R : Type) := Except String R × List (PropKey × JSVal)

/-- Loop of lines 143-154 of match.ts:
for each enumerated case key (skipping "default"), if the key is found on
the subject (own property or prototype chain, the `in` operator), invoke
that key's handler with the subject's property value and return. Entries are
functions, so the `if (handler)` truthiness test succeeds whenever the
lookup does and the `typeof handler === "function"` branch applies. Returns
none when the loop falls through. -/
def structuralScan {R : Type} (own proto : List (PropKey × JSVal))
    (cases : List (CaseEntry R)) : List PropKey → Option (MatchResult R)
  | [] => none
  | k :: rest =>
    if k = PropKey.str "default" then structuralScan own proto cases rest
    else if keyIn own proto k then
      match casesLookup cases k with
      | some f => some (.ok (f (getProp own proto k)), [(k, getProp own proto k)])
      | none => structuralScan own proto cases rest
    else structuralScan own proto cases rest

/-- Lines 180-224 of match.ts: the Result/Option capability tests, in the
fixed order isOk, isErr, isSome, isNone. Each test requires the method's key
on the subject (the `in` operator) and a true result from calling it; the
matching branch requires the corresponding handler, throwing `Missing case
for <variant>` when absent, and invokes it with `unwrap()`, `unwrapErr()`,
`unwrap()`, or no argument respectively. Non-objects fail every guard and
reach the final throw of line 224. -/
def capabilityStep {R : Type} (matcher : JSVal) (cases : List (CaseEntry R)) :
    MatchResult R :=
  match matcher with
  | .vobj own proto isOkB isErrB isSomeB isNoneB unwrapV unwrapErrV =>
    if keyIn own proto (.str "isOk") && isOkB then
      match casesLookup cases (.str "Ok") with
      | some f => (.ok (f unwrapV), [(.str "Ok", unwrapV)])
      | none => (.error "Missing case for Ok", [])
    else if keyIn own proto (.str "isErr") && isErrB then
      match casesLookup cases (.str "Err") with
      | some f => (.ok (f unwrapErrV), [(.str "Err", unwrapErrV)])
      | none => (.error "Missing case for Err", [])
    else if keyIn own proto (.str "isSome") && isSomeB then
      match casesLookup cases (.str "Some") with
      | some f => (.ok (f unwrapV), [(.str "Some", unwrapV)])
      | none => (.error "Missing case for Some", [])
    else if keyIn own proto (.str "isNone") && isNoneB then
      match casesLookup cases (.str "None") with
      | some f => (.ok (f .vundefined), [(.str "None", .vundefined)])
      | none => (.error "Missing case for None", [])
    else (.error "Invalid matcher or missing case", [])
  | _ => (.error "Invalid matcher or missing case", [])

/-- Lines 163-178 of match.ts: the discriminated-union step. When the
discriminant argument is truthy and the subject is a non-null object, read
`subject[discriminant]`, convert it to a property key, and look up the case
table there; invoke the handler - or else `cases.default` - with the whole
subject, or throw naming the unmatched discriminant value. Otherwise control
falls through to the capability tests. -/
def discriminantStep {R : Type} (matcher : JSVal) (cases : List (CaseEntry R))
    (discriminant : Option PropKey) : MatchResult R :=
  match discriminant, matcher with
  | some d, .vobj own proto isOkB isErrB isSomeB isNoneB unwrapV unwrapErrV =>
    if keyTruthy (some d) then
      let dv := getProp own proto d
      match casesLookup cases (toPropKey dv) with
      | some f =>
        (.ok (f (.vobj own proto isOkB isErrB isSomeB isNoneB unwrapV unwrapErrV)),
          [(toPropKey dv, .vobj own proto isOkB isErrB isSomeB isNoneB unwrapV unwrapErrV)])
      | none =>
        match casesLookup cases (.str "default") with
        | some f =>
          (.ok (f (.vobj own proto isOkB isErrB isSomeB isNoneB unwrapV unwrapErrV)),
            [(.str "default", .vobj own proto isOkB isErrB isSomeB isNoneB unwrapV unwrapErrV)])
        | none =>
          (.error ("No case found for discriminant value: " ++ jsToString dv), [])
    else capabilityStep matcher cases
  | _, _ => capabilityStep matcher cases

/-- Lines 141-160 of match.ts: the structural step. When the subject is a
non-null object and the discriminant is falsy, scan the case keys in
enumeration order with `structuralScan`; when the scan falls through, invoke
`cases.default` with no arguments if present, and otherwise fall through
(without failing) to the discriminant step - which, the discriminant being
falsy here, itself falls through to the capability tests. Subjects that are
not non-null objects skip to the discriminant step directly. -/
def structuralStep {R : Type} (matcher : JSVal) (cases : List (CaseEntry R))
    (discriminant : Option PropKey) : MatchResult R :=
  match matcher with
  | .vobj own proto isOkB isErrB isSomeB isNoneB unwrapV unwrapErrV =>
    if keyTruthy discriminant then discriminantStep matcher cases discriminant
    else
      match structuralScan own proto cases (enumKeys (cases.map (·.key))) with
      | some r => r
      | none =>
        match casesLookup cases (.str "default") with
        | some f => (.ok (f .vundefined), [(.str "default", .vundefined)])
        | none =>
          discriminantStep
            (.vobj own proto isOkB isErrB isSomeB isNoneB unwrapV unwrapErrV)
            cases discriminant
  | _ => discriminantStep matcher cases discriminant

/-- Shallow embedding of the dispatcher `match` (src/src/helpers/match.ts,
lines 115-225). Primitive subjects (string, number, symbol) are handled
first: look up `cases[subject]` (JavaScript converts a number subject to its
canonical string key), invoke with no arguments; else `cases.default`; else
throw naming the value. All other subjects proceed to the structural,
discriminated-union, and capability steps in that order. The second
component of the result records every handler invocation performed. -/
def jsmatch {R : Type} (matcher : JSVal) (cases : List (CaseEntry R))
    (discriminant : Option PropKey) : MatchResult R :=
  if isPrim matcher then
    match casesLookup cases (toPropKey matcher) with
    | some f => (.ok (f .vundefined), [(toPropKey matcher, .vundefined)])
    | none =>
      match casesLookup cases (.str "default") with
      | some f => (.ok (f .vundefined), [(.str "default", .vundefined)])
      | none => (.error ("No case found for value: " ++ jsToString matcher), [])
  else structuralStep matcher cases discriminant

/-- First case-table key, in `for..in` enumeration order, that is not
"default" and is found on the subject by the `in` operator. This is the key
whose handler the structural step selects. -/
def firstMatchingKey (own proto : List (PropKey × JSVal)) (ks : List PropKey) :
    Option PropKey :=
  (enumKeys ks).find? (fun k => !(k == PropKey.str "default") && keyIn own proto k)

end Results

namespace Results

/-- The Option container (src/src/option): a `Some` holding a value or the
payload-free `None`. Named `ROption` to avoid clashing with Lean's `Option`. -/
inductive ROption (T : Type) where
  | Some (value : T)
  | None

/-- The Result container (src/src/result): an `Ok` holding a value or an
`Err` holding an error value. Named `RResult` to avoid clashing with names
in scope. The `Err` factory and constructor store the error exactly as given
(err.ts line 16: "Store error as-is"); nothing converts strings or anything
else into a different error representation. -/
inductive RResult (T E : Type) where
  | Ok (value : T)
  | Err (error : E)

/-- Factory `Some(value)` (option.ts): wraps the value. -/
def mkSome {T : Type} (value : T) : ROption T := ROption.Some value

/-- Factory `None()` (option.ts): the empty option. -/
def mkNone {T : Type} : ROption T := ROption.None

/-- Factory `Ok(value)` (result.ts): wraps the value. -/
def mkOk {T E : Type} (value : T) : RResult T E := RResult.Ok value

/-- Factory `Err(error)` (result.ts): stores the error exactly as given -
`return new ErrType(error)`, whose constructor is `this.error = error`. -/
def mkErr {T E : Type} (error : E) : RResult T E := RResult.Err error

/-- Method `isSome` of Some (some.ts line 21) and None (none.ts line 28). -/
def ROption.isSome {T : Type} : ROption T → Bool
  | .Some _ => true
  | .None => false

/-- Method `isNone` of Some (some.ts line 29) and None (none.ts line 36). -/
def ROption.isNone {T : Type} : ROption T → Bool
  | .Some _ => false
  | .None => true

/-- Method `unwrap`: Some returns its value (some.ts line 37), None throws
`Called unwrap on a None value` (none.ts line 44). -/
def ROption.unwrap {T : Type} : ROption T → Except String T
  | .Some v => .ok v
  | .None => .error "Called unwrap on a None value"

/-- Method `okOr`: Some(v) returns Ok(v) ignoring the supplied error
(some.ts lines 95-97), None returns Err(error) (none.ts lines 104-106). -/
def ROption.okOr {T E : Type} : ROption T → E → RResult T E
  | .Some v, _ => RResult.Ok v
  | .None, e => RResult.Err e

/-- Method `isOk` of Ok (ok.ts line 18) and Err (err.ts line 28). -/
def RResult.isOk {T E : Type} : RResult T E → Bool
  | .Ok _ => true
  | .Err _ => false

/-- Method `isErr` of Ok (ok.ts line 26) and Err (err.ts line 36). -/
def RResult.isErr {T E : Type} : RResult T E → Bool
  | .Ok _ => false
  | .Err _ => true

/-- Method `unwrap`: Ok returns its value (ok.ts line 34), Err throws
`Called unwrap on an Err value` (err.ts line 45). -/
def RResult.unwrap {T E : Type} : RResult T E → Except String T
  | .Ok v => .ok v
  | .Err _ => .error "Called unwrap on an Err value"

/-- Method `unwrapErr`: Err returns the stored error exactly as given
(err.ts lines 85-87), Ok throws `Called unwrapErr on an Ok value`
(ok.ts lines 84-86). -/
def RResult.unwrapErr {T E : Type} : RResult T E → Except String E
  | .Ok _ => .error "Called unwrapErr on an Ok value"
  | .Err e => .ok e

/-- Method `ok`: Ok(v) returns Some(v) (ok.ts lines 122-124), Err returns
None() (err.ts lines 135-137). -/
def RResult.ok {T E : Type} : RResult T E → ROption T
  | .Ok v => ROption.Some v
  | .Err _ => ROption.None

end Results

namespace Results

@[simp] lemma isPrim_vstr (s : String) : isPrim (.vstr s) = true := rfl

@[simp] lemma isPrim_vnum (n : Int) : isPrim (.vnum n) = true := rfl

@[simp] lemma isPrim_vsym (i : Nat) : isPrim (.vsym i) = true := rfl

@[simp] lemma isPrim_vbool (b : Bool) : isPrim (.vbool b) = false := rfl

@[simp] lemma isPrim_vnull : isPrim .vnull = false := rfl

@[simp] lemma isPrim_vundefined : isPrim .vundefined = false := rfl

@[simp] lemma isPrim_vfun (t : Nat) : isPrim (.vfun t) = false := rfl

@[simp] lemma isPrim_vobj (own proto : List (PropKey × JSVal)) (b1 b2 b3 b4 : Bool)
    (uv uev : JSVal) : isPrim (.vobj own proto b1 b2 b3 b4 uv uev) = false := rfl

@[simp] lemma keyTruthy_none : keyTruthy none = false := rfl

/-- Test of the structural loop for one key: not "default" and found on the
subject by the `in` operator. `firstMatchingKey` is `find?` of this test over
the enumeration order. -/
def scanHit (own proto : List (PropKey × JSVal)) (k : PropKey) : Bool :=
  !(k == PropKey.str "default") && keyIn own proto k

lemma firstMatchingKey_eq_find (own proto : List (PropKey × JSVal)) (ks : List PropKey) :
    firstMatchingKey own proto ks = (enumKeys ks).find? (scanHit own proto) := rfl

lemma casesLookup_of_mem {R : Type} (cases : List (CaseEntry R)) (k : PropKey)
    (h : k ∈ cases.map (·.key)) : ∃ f, casesLookup cases k = some f := by
  induction cases with
  | nil => simp at h
  | cons e rest ih =>
    by_cases hk : e.key = k
    · exact ⟨e.fn, by simp [casesLookup, hk]⟩
    · have hmem : k ∈ rest.map (·.key) := by
        simp only [List.map_cons, List.mem_cons] at h
        rcases h with h | h
        · exact absurd h.symm hk
        · exact h
      rcases ih hmem with ⟨f, hf⟩
      exact ⟨f, by simp [casesLookup, hk, hf]⟩

lemma mem_insertAsc (p q : Nat × PropKey) (l : List (Nat × PropKey)) :
    q ∈ insertAsc p l ↔ q = p ∨ q ∈ l := by
  induction l with
  | nil => simp [insertAsc]
  | cons r rest ih =>
    by_cases h : p.1 < r.1
    · simp only [insertAsc, if_pos h, List.mem_cons]
    · simp only [insertAsc, if_neg h, List.mem_cons, ih]
      tauto

lemma mem_sortAsc (q : Nat × PropKey) (l : List (Nat × PropKey)) :
    q ∈ sortAsc l ↔ q ∈ l := by
  induction l with
  | nil => simp [sortAsc]
  | cons p rest ih => simp [sortAsc, mem_insertAsc, ih]

lemma mem_of_mem_enumKeys {k : PropKey} {ks : List PropKey}
    (h : k ∈ enumKeys ks) : k ∈ ks := by
  simp only [enumKeys, List.mem_append] at h
  rcases h with h | h
  · simp only [List.mem_map] at h
    rcases h with ⟨p, hp, hpk⟩
    rw [mem_sortAsc] at hp
    simp only [List.mem_filterMap] at hp
    rcases hp with ⟨k', hk', hm⟩
    rcases Option.map_eq_some'.mp hm with ⟨n, _, hnk⟩
    rw [← hpk, ← hnk]
    exact hk'
  · exact (List.mem_filter.mp h).1

lemma structuralScan_eq_none {R : Type} (own proto : List (PropKey × JSVal))
    (cases : List (CaseEntry R)) (keys : List PropKey)
    (h : keys.find? (scanHit own proto) = none) :
    structuralScan own proto cases keys = none := by
  induction keys with
  | nil => rfl
  | cons a rest ih =>
    by_cases ha : scanHit own proto a = true
    · rw [List.find?_cons_of_pos _ ha] at h
      cases h
    · rw [List.find?_cons_of_neg _ (by simp [ha])] at h
      have hrest := ih h
      by_cases hd : a = PropKey.str "default"
      · simp only [structuralScan, if_pos hd]
        exact hrest
      · have hin : keyIn own proto a = false := by
          by_contra hc
          apply ha
          simp only [scanHit, Bool.and_eq_true, Bool.not_eq_true', beq_eq_false_iff_ne]
          exact ⟨hd, by simpa using hc⟩
        simp only [structuralScan, if_neg hd, hin]
        exact hrest

lemma structuralScan_eq_some {R : Type} (own proto : List (PropKey × JSVal))
    (cases : List (CaseEntry R)) (keys : List PropKey) (k : PropKey)
    (hfind : keys.find? (scanHit own proto) = some k)
    (hcov : ∀ k' ∈ keys, ∃ f, casesLookup cases k' = some f) :
    ∃ f, casesLookup cases k = some f ∧
      structuralScan own proto cases keys
        = some (.ok (f (getProp own proto k)), [(k, getProp own proto k)]) := by
  induction keys with
  | nil => cases hfind
  | cons a rest ih =>
    by_cases ha : scanHit own proto a = true
    · rw [List.find?_cons_of_pos _ ha] at hfind
      injection hfind with hak
      subst hak
      have hd : ¬ a = PropKey.str "default" := by
        intro hc
        simp [scanHit, hc] at ha
      have hin : keyIn own proto a = true := by
        simp only [scanHit, Bool.and_eq_true] at ha
        exact ha.2
      rcases hcov a (by simp) with ⟨f, hf⟩
      exact ⟨f, hf, by simp only [structuralScan, if_neg hd, hin, if_pos trivial, hf]⟩
    · rw [List.find?_cons_of_neg _ (by simp [ha])] at hfind
      rcases ih hfind (fun k' hk' => hcov k' (by simp [hk'])) with ⟨f, hf, hs⟩
      refine ⟨f, hf, ?_⟩
      by_cases hd : a = PropKey.str "default"
      · simp only [structuralScan, if_pos hd]
        exact hs
      · have hin : keyIn own proto a = false := by
          by_contra hc
          apply ha
          simp only [scanHit, Bool.and_eq_true, Bool.not_eq_true', beq_eq_false_iff_ne]
          exact ⟨hd, by simpa using hc⟩
        simp only [structuralScan, if_neg hd, hin]
        exact hs

lemma structuralScan_shape {R : Type} (own proto : List (PropKey × JSVal))
    (cases : List (CaseEntry R)) (keys : List PropKey) (r : MatchResult R)
    (h : structuralScan own proto cases keys = some r) :
    ∃ k f, casesLookup cases k = some f ∧
      r = (.ok (f (getProp own proto k)), [(k, getProp own proto k)]) := by
  induction keys with
  | nil => cases h
  | cons a rest ih =>
    by_cases hd : a = PropKey.str "default"
    · simp only [structuralScan, if_pos hd] at h
      exact ih h
    · by_cases hin : keyIn own proto a = true
      · simp only [structuralScan, if_neg hd, hin] at h
        rcases hl : casesLookup cases a with _ | f
        · rw [hl] at h
          exact ih h
        · rw [hl] at h
          injection h with hr
          exact ⟨a, f, hl, hr.symm⟩
      · simp only [structuralScan, if_neg hd, Bool.not_eq_true] at hin
        simp only [structuralScan, if_neg hd, hin] at h
        exact ih h

end Results

namespace Results

lemma jsmatch_obj_fallthrough {R : Type} (own proto : List (PropKey × JSVal))
    (b1 b2 b3 b4 : Bool) (uv uev : JSVal) (cases : List (CaseEntry R))
    (hscan : firstMatchingKey own proto (cases.map (·.key)) = none)
    (hdef : casesLookup cases (.str "default") = none) :
    jsmatch (.vobj own proto b1 b2 b3 b4 uv uev) cases none
      = capabilityStep (.vobj own proto b1 b2 b3 b4 uv uev) cases := by
  have hscan' : structuralScan own proto cases (enumKeys (cases.map (·.key))) = none :=
    structuralScan_eq_none own proto cases _ hscan
  simp only [jsmatch, isPrim_vobj, Bool.false_eq_true, if_false, structuralStep,
    keyTruthy_none, hscan', hdef, discriminantStep]

lemma capabilityStep_vobj {R : Type} (own proto : List (PropKey × JSVal))
    (b1 b2 b3 b4 : Bool) (uv uev : JSVal) (cases : List (CaseEntry R)) :
    capabilityStep (.vobj own proto b1 b2 b3 b4 uv uev) cases =
      if keyIn own proto (.str "isOk") && b1 then
        match casesLookup cases (.str "Ok") with
        | some f => (.ok (f uv), [(.str "Ok", uv)])
        | none => (.error "Missing case for Ok", [])
      else if keyIn own proto (.str "isErr") && b2 then
        match casesLookup cases (.str "Err") with
        | some f => (.ok (f uev), [(.str "Err", uev)])
        | none => (.error "Missing case for Err", [])
      else if keyIn own proto (.str "isSome") && b3 then
        match casesLookup cases (.str "Some") with
        | some f => (.ok (f uv), [(.str "Some", uv)])
        | none => (.error "Missing case for Some", [])
      else if keyIn own proto (.str "isNone") && b4 then
        match casesLookup cases (.str "None") with
        | some f => (.ok (f .vundefined), [(.str "None", .vundefined)])
        | none => (.error "Missing case for None", [])
      else (.error "Invalid matcher or missing case", []) := rfl

lemma capabilityStep_trace {R : Type} (m : JSVal) (cases : List (CaseEntry R))
    (p : PropKey × JSVal) (hp : p ∈ (capabilityStep m cases).2) :
    p.1 = PropKey.str "Ok" ∨ p.1 = PropKey.str "Err" ∨ p.1 = PropKey.str "Some" ∨
      p.1 = PropKey.str "None" := by
  cases m with
  | vobj own proto b1 b2 b3 b4 uv uev =>
    rw [capabilityStep_vobj] at hp
    by_cases hc1 : (keyIn own proto (.str "isOk") && b1) = true
    · rw [if_pos hc1] at hp
      rcases h1 : casesLookup cases (.str "Ok") with _ | f <;> rw [h1] at hp <;>
        simp at hp
      exact Or.inl (by rw [hp])
    · rw [if_neg hc1] at hp
      by_cases hc2 : (keyIn own proto (.str "isErr") && b2) = true
      · rw [if_pos hc2] at hp
        rcases h2 : casesLookup cases (.str "Err") with _ | f <;> rw [h2] at hp <;>
          simp at hp
        exact Or.inr (Or.inl (by rw [hp]))
      · rw [if_neg hc2] at hp
        by_cases hc3 : (keyIn own proto (.str "isSome") && b3) = true
        · rw [if_pos hc3] at hp
          rcases h3 : casesLookup cases (.str "Some") with _ | f <;> rw [h3] at hp <;>
            simp at hp
          exact Or.inr (Or.inr (Or.inl (by rw [hp])))
        · rw [if_neg hc3] at hp
          by_cases hc4 : (keyIn own proto (.str "isNone") && b4) = true
          · rw [if_pos hc4] at hp
            rcases h4 : casesLookup cases (.str "None") with _ | f <;> rw [h4] at hp <;>
              simp at hp
            exact Or.inr (Or.inr (Or.inr (by rw [hp])))
          · rw [if_neg hc4] at hp
            simp at hp
  | vstr s => simp [capabilityStep] at hp
  | vnum n => simp [capabilityStep] at hp
  | vsym i => simp [capabilityStep] at hp
  | vbool b => simp [capabilityStep] at hp
  | vnull => simp [capabilityStep] at hp
  | vundefined => simp [capabilityStep] at hp
  | vfun t => simp [capabilityStep] at hp

lemma capabilityStep_shape {R : Type} (m : JSVal) (cases : List (CaseEntry R)) :
    (∃ e, capabilityStep m cases = (.error e, [])) ∨
    (∃ k a f, casesLookup cases k = some f ∧
      capabilityStep m cases = (.ok (f a), [(k, a)])) := by
  cases m with
  | vobj own proto b1 b2 b3 b4 uv uev =>
    rw [capabilityStep_vobj]
    by_cases hc1 : (keyIn own proto (.str "isOk") && b1) = true
    · rw [if_pos hc1]
      rcases h1 : casesLookup cases (.str "Ok") with _ | f
      · exact Or.inl ⟨_, rfl⟩
      · exact Or.inr ⟨.str "Ok", uv, f, h1, rfl⟩
    · rw [if_neg hc1]
      by_cases hc2 : (keyIn own proto (.str "isErr") && b2) = true
      · rw [if_pos hc2]
        rcases h2 : casesLookup cases (.str "Err") with _ | f
        · exact Or.inl ⟨_, rfl⟩
        · exact Or.inr ⟨.str "Err", uev, f, h2, rfl⟩
      · rw [if_neg hc2]
        by_cases hc3 : (keyIn own proto (.str "isSome") && b3) = true
        · rw [if_pos hc3]
          rcases h3 : casesLookup cases (.str "Some") with _ | f
          · exact Or.inl ⟨_, rfl⟩
          · exact Or.inr ⟨.str "Some", uv, f, h3, rfl⟩
        · rw [if_neg hc3]
          by_cases hc4 : (keyIn own proto (.str "isNone") && b4) = true
          · rw [if_pos hc4]
            rcases h4 : casesLookup cases (.str "None") with _ | f
            · exact Or.inl ⟨_, rfl⟩
            · exact Or.inr ⟨.str "None", .vundefined, f, h4, rfl⟩
          · rw [if_neg hc4]
            exact Or.inl ⟨_, rfl⟩
  | vstr s => exact Or.inl ⟨_, rfl⟩
  | vnum n => exact Or.inl ⟨_, rfl⟩
  | vsym i => exact Or.inl ⟨_, rfl⟩
  | vbool b => exact Or.inl ⟨_, rfl⟩
  | vnull => exact Or.inl ⟨_, rfl⟩
  | vundefined => exact Or.inl ⟨_, rfl⟩
  | vfun t => exact Or.inl ⟨_, rfl⟩

lemma discriminantStep_vobj {R : Type} (own proto : List (PropKey × JSVal))
    (b1 b2 b3 b4 : Bool) (uv uev : JSVal) (cases : List (CaseEntry R)) (d : PropKey) :
    discriminantStep (.vobj own proto b1 b2 b3 b4 uv uev) cases (some d) =
      if keyTruthy (some d) then
        match casesLookup cases (toPropKey (getProp own proto d)) with
        | some f =>
          (.ok (f (.vobj own proto b1 b2 b3 b4 uv uev)),
            [(toPropKey (getProp own proto d), .vobj own proto b1 b2 b3 b4 uv uev)])
        | none =>
          match casesLookup cases (.str "default") with
          | some f =>
            (.ok (f (.vobj own proto b1 b2 b3 b4 uv uev)),
              [(.str "default", .vobj own proto b1 b2 b3 b4 uv uev)])
          | none =>
            (.error ("No case found for discriminant value: "
              ++ jsToString (getProp own proto d)), [])
      else capabilityStep (.vobj own proto b1 b2 b3 b4 uv uev) cases := rfl

lemma discriminantStep_none {R : Type} (m : JSVal) (cases : List (CaseEntry R)) :
    discriminantStep m cases none = capabilityStep m cases := by
  cases m <;> rfl

lemma discriminantStep_some_not_obj {R : Type} (m : JSVal) (cases : List (CaseEntry R))
    (d : PropKey) (hm : isObjNonNull m = false) :
    discriminantStep m cases (some d) = capabilityStep m cases := by
  cases m with
  | vobj own proto b1 b2 b3 b4 uv uev => simp [isObjNonNull] at hm
  | vstr s => rfl
  | vnum n => rfl
  | vsym i => rfl
  | vbool b => rfl
  | vnull => rfl
  | vundefined => rfl
  | vfun t => rfl

lemma structuralStep_not_obj {R : Type} (m : JSVal) (cases : List (CaseEntry R))
    (disc : Option PropKey) (hm : isObjNonNull m = false) :
    structuralStep m cases disc = discriminantStep m cases disc := by
  cases m with
  | vobj own proto b1 b2 b3 b4 uv uev => simp [isObjNonNull] at hm
  | vstr s => rfl
  | vnum n => rfl
  | vsym i => rfl
  | vbool b => rfl
  | vnull => rfl
  | vundefined => rfl
  | vfun t => rfl

lemma structuralStep_vobj {R : Type} (own proto : List (PropKey × JSVal))
    (b1 b2 b3 b4 : Bool) (uv uev : JSVal) (cases : List (CaseEntry R))
    (disc : Option PropKey) :
    structuralStep (.vobj own proto b1 b2 b3 b4 uv uev) cases disc =
      if keyTruthy disc then
        discriminantStep (.vobj own proto b1 b2 b3 b4 uv uev) cases disc
      else
        match structuralScan own proto cases (enumKeys (cases.map (·.key))) with
        | some r => r
        | none =>
          match casesLookup cases (.str "default") with
          | some f => (.ok (f .vundefined), [(.str "default", .vundefined)])
          | none =>
            discriminantStep (.vobj own proto b1 b2 b3 b4 uv uev) cases disc := rfl

lemma discriminantStep_shape {R : Type} (m : JSVal) (cases : List (CaseEntry R))
    (disc : Option PropKey) :
    (∃ e, discriminantStep m cases disc = (.error e, [])) ∨
    (∃ k a f, casesLookup cases k = some f ∧
      discriminantStep m cases disc = (.ok (f a), [(k, a)])) := by
  rcases disc with _ | d
  · rw [discriminantStep_none]
    exact capabilityStep_shape m cases
  · cases m with
    | vobj own proto b1 b2 b3 b4 uv uev =>
      rw [discriminantStep_vobj]
      by_cases ht : keyTruthy (some d) = true
      · rw [if_pos ht]
        rcases h1 : casesLookup cases (toPropKey (getProp own proto d)) with _ | f
        · rcases h2 : casesLookup cases (.str "default") with _ | g
          · exact Or.inl ⟨_, rfl⟩
          · exact Or.inr ⟨.str "default", _, g, h2, rfl⟩
        · exact Or.inr ⟨toPropKey (getProp own proto d), _, f, h1, rfl⟩
      · rw [if_neg ht]
        exact capabilityStep_shape _ cases
    | vstr s =>
      rw [discriminantStep_some_not_obj (JSVal.vstr s) cases d rfl]
      exact capabilityStep_shape _ cases
    | vnum n =>
      rw [discriminantStep_some_not_obj (JSVal.vnum n) cases d rfl]
      exact capabilityStep_shape _ cases
    | vsym i =>
      rw [discriminantStep_some_not_obj (JSVal.vsym i) cases d rfl]
      exact capabilityStep_shape _ cases
    | vbool b =>
      rw [discriminantStep_some_not_obj (JSVal.vbool b) cases d rfl]
      exact capabilityStep_shape _ cases
    | vnull =>
      rw [discriminantStep_some_not_obj (JSVal.vnull) cases d rfl]
      exact capabilityStep_shape _ cases
    | vundefined =>
      rw [discriminantStep_some_not_obj (JSVal.vundefined) cases d rfl]
      exact capabilityStep_shape _ cases
    | vfun t =>
      rw [discriminantStep_some_not_obj (JSVal.vfun t) cases d rfl]
      exact capabilityStep_shape _ cases

lemma structuralStep_shape {R : Type} (m : JSVal) (cases : List (CaseEntry R))
    (disc : Option PropKey) :
    (∃ e, structuralStep m cases disc = (.error e, [])) ∨
    (∃ k a f, casesLookup cases k = some f ∧
      structuralStep m cases disc = (.ok (f a), [(k, a)])) := by
  cases m with
  | vobj own proto b1 b2 b3 b4 uv uev =>
    rw [structuralStep_vobj]
    by_cases ht : keyTruthy disc = true
    · rw [if_pos ht]
      exact discriminantStep_shape _ cases disc
    · rw [if_neg ht]
      rcases hs : structuralScan own proto cases (enumKeys (cases.map (·.key))) with _ | r
      · simp only [hs]
        rcases h2 : casesLookup cases (.str "default") with _ | g
        · simp only [h2]
          exact discriminantStep_shape _ cases disc
        · simp only [h2]
          exact Or.inr ⟨.str "default", _, g, h2, rfl⟩
      · simp only [hs]
        rcases structuralScan_shape own proto cases _ r hs with ⟨k, f, hf, hr⟩
        exact Or.inr ⟨k, getProp own proto k, f, hf, hr⟩
  | vstr s =>
    rw [structuralStep_not_obj (JSVal.vstr s) cases disc rfl]
    exact discriminantStep_shape _ cases disc
  | vnum n =>
    rw [structuralStep_not_obj (JSVal.vnum n) cases disc rfl]
    exact discriminantStep_shape _ cases disc
  | vsym i =>
    rw [structuralStep_not_obj (JSVal.vsym i) cases disc rfl]
    exact discriminantStep_shape _ cases disc
  | vbool b =>
    rw [structuralStep_not_obj (JSVal.vbool b) cases disc rfl]
    exact discriminantStep_shape _ cases disc
  | vnull =>
    rw [structuralStep_not_obj (JSVal.vnull) cases disc rfl]
    exact discriminantStep_shape _ cases disc
  | vundefined =>
    rw [structuralStep_not_obj (JSVal.vundefined) cases disc rfl]
    exact discriminantStep_shape _ cases disc
  | vfun t =>
    rw [structuralStep_not_obj (JSVal.vfun t) cases disc rfl]
    exact discriminantStep_shape _ cases disc

end Results

namespace Results

lemma jsmatch_prim {R : Type} (m : JSVal) (cases : List (CaseEntry R))
    (disc : Option PropKey) (hm : isPrim m = true) :
    jsmatch m cases disc =
      match casesLookup cases (toPropKey m) with
      | some f => (.ok (f .vundefined), [(toPropKey m, .vundefined)])
      | none =>
        match casesLookup cases (.str "default") with
        | some f => (.ok (f .vundefined), [(.str "default", .vundefined)])
        | none => (.error ("No case found for value: " ++ jsToString m), []) := by
  unfold jsmatch
  rw [if_pos hm]

lemma jsmatch_eq_structuralStep {R : Type} (m : JSVal) (cases : List (CaseEntry R))
    (disc : Option PropKey) (hm : isPrim m = false) :
    jsmatch m cases disc = structuralStep m cases disc := by
  unfold jsmatch
  rw [if_neg (show ¬ isPrim m = true by simp [hm])]

/-- C4: every call to `match` either throws having invoked no handler at all,
or returns normally having invoked exactly one case-table handler exactly
once, and the returned value is that handler's return value unchanged; a
missing-case condition with no default is never swallowed silently, because
the only normal returns are handler invocations. The second component of
`jsmatch` records the handler invocations performed (case key and argument). -/
theorem match_invokes_exactly_one_handler {R : Type} (m : JSVal)
    (cases : List (CaseEntry R)) (disc : Option PropKey) :
    (∃ e, jsmatch m cases disc = (.error e, [])) ∨
    (∃ k a f, casesLookup cases k = some f ∧
      jsmatch m cases disc = (.ok (f a), [(k, a)])) := by
  by_cases hm : isPrim m = true
  · rw [jsmatch_prim m cases disc hm]
    rcases h1 : casesLookup cases (toPropKey m) with _ | f
    · rcases h2 : casesLookup cases (.str "default") with _ | g
      · exact Or.inl ⟨_, rfl⟩
      · exact Or.inr ⟨.str "default", _, g, h2, rfl⟩
    · exact Or.inr ⟨toPropKey m, _, f, h1, rfl⟩
  · rw [jsmatch_eq_structuralStep m cases disc (by simpa using hm)]
    exact structuralStep_shape m cases disc

/-- C10: a boolean, null, or undefined subject satisfies neither the
primitive check nor the non-null-object checks, so `match` reaches the final
throw `Invalid matcher or missing case` whatever the case table and
discriminant are, and no handler - `cases.default` included - is invoked. -/
theorem match_rejects_bool_null_undefined {R : Type} (cases : List (CaseEntry R))
    (disc : Option PropKey) :
    (∀ b, jsmatch (.vbool b) cases disc
      = (.error "Invalid matcher or missing case", [])) ∧
    jsmatch .vnull cases disc = (.error "Invalid matcher or missing case", []) ∧
    jsmatch .vundefined cases disc = (.error "Invalid matcher or missing case", []) := by
  refine ⟨fun b => ?_, ?_, ?_⟩
  · rw [jsmatch_eq_structuralStep (.vbool b) cases disc rfl,
      structuralStep_not_obj (JSVal.vbool b) cases disc rfl]
    rcases disc with _ | d
    · rw [discriminantStep_none]
      rfl
    · rw [discriminantStep_some_not_obj (JSVal.vbool b) cases d rfl]
      rfl
  · rw [jsmatch_eq_structuralStep .vnull cases disc rfl,
      structuralStep_not_obj JSVal.vnull cases disc rfl]
    rcases disc with _ | d
    · rw [discriminantStep_none]
      rfl
    · rw [discriminantStep_some_not_obj JSVal.vnull cases d rfl]
      rfl
  · rw [jsmatch_eq_structuralStep .vundefined cases disc rfl,
      structuralStep_not_obj JSVal.vundefined cases disc rfl]
    rcases disc with _ | d
    · rw [discriminantStep_none]
      rfl
    · rw [discriminantStep_some_not_obj JSVal.vundefined cases d rfl]
      rfl

/-- C6: a string, number, or symbol subject selects the handler stored under
its property key and that handler is invoked with no arguments and its result
returned; otherwise `cases.default` is invoked with no arguments; otherwise
`match` throws `No case found for value: <subject>`, naming the value. -/
theorem match_primitive_dispatch {R : Type} (m : JSVal) (cases : List (CaseEntry R))
    (disc : Option PropKey) (hm : isPrim m = true) :
    (∀ f, casesLookup cases (toPropKey m) = some f →
      jsmatch m cases disc = (.ok (f .vundefined), [(toPropKey m, .vundefined)])) ∧
    (casesLookup cases (toPropKey m) = none →
      (∀ f, casesLookup cases (.str "default") = some f →
        jsmatch m cases disc = (.ok (f .vundefined), [(.str "default", .vundefined)])) ∧
      (casesLookup cases (.str "default") = none →
        jsmatch m cases disc
          = (.error ("No case found for value: " ++ jsToString m), []))) := by
  rw [jsmatch_prim m cases disc hm]
  refine ⟨fun f hf => ?_, fun h0 => ⟨fun f hf => ?_, fun hd => ?_⟩⟩
  · rw [hf]
  · rw [h0, hf]
  · rw [h0, hd]

/-- Case table of the status example from the spec's testable properties. -/
def statusCases : List (CaseEntry Nat) :=
  [⟨.str "active", fun _ => 1⟩, ⟨.str "inactive", fun _ => 0⟩]

/-- Witness for C6: dispatching the string subject "active" on the status
table invokes the "active" handler and returns its value 1. -/
theorem match_primitive_dispatch_witness :
    jsmatch (.vstr "active") statusCases none
      = (.ok 1, [(PropKey.str "active", .vundefined)]) :=
  (match_primitive_dispatch (.vstr "active") statusCases none rfl).1 (fun _ => 1) rfl

/-- C8: the `Err` factory stores the error value exactly as given, for any
error type - strings included, with no implicit coercion into a structured
error type - and `unwrapErr` returns that exact value. -/
theorem err_stores_error_exactly (E : Type) (e : E) (s : String) :
    (mkErr e : RResult Unit E) = RResult.Err e ∧
    (mkErr e : RResult Unit E).unwrapErr = Except.ok e ∧
    (mkErr s : RResult Unit String).unwrapErr = Except.ok s :=
  ⟨rfl, rfl, rfl⟩

/-- C9: the Option-Result-Option round trip: `Some(v).okOr(e)` is `Ok(v)`,
whose `ok()` is `Some(v)`, whose `unwrap()` is `v`; and `None().okOr(e)` is
`Err(e)`, whose `unwrapErr()` is `e`. -/
theorem option_result_roundtrip (T E : Type) (v : T) (e : E) :
    (((mkSome v).okOr (E := E) e).ok).unwrap = Except.ok v ∧
    ((mkNone : ROption T).okOr e).unwrapErr = Except.ok e :=
  ⟨rfl, rfl⟩

end Results

namespace Results

/-- C1 (amended): for a non-null object subject with no discriminant, the
structural step scans the case-table keys in enumeration order and the first
key found on the subject by the `in` operator - as an own property or
anywhere on the prototype chain - has its handler invoked with the subject's
property value under that key; when no key at all is found on the subject,
no structural handler is invoked: only `default` or one of the Result/Option
variant handlers can still run. -/
theorem match_structural_scan_uses_in_operator {R : Type}
    (own proto : List (PropKey × JSVal)) (b1 b2 b3 b4 : Bool) (uv uev : JSVal)
    (cases : List (CaseEntry R)) :
    (∀ k, firstMatchingKey own proto (cases.map (·.key)) = some k →
      ∃ f, casesLookup cases k = some f ∧
        jsmatch (.vobj own proto b1 b2 b3 b4 uv uev) cases none
          = (.ok (f (getProp own proto k)), [(k, getProp own proto k)])) ∧
    (firstMatchingKey own proto (cases.map (·.key)) = none →
      ∀ p ∈ (jsmatch (.vobj own proto b1 b2 b3 b4 uv uev) cases none).2,
        p.1 = PropKey.str "default" ∨ p.1 = PropKey.str "Ok" ∨
          p.1 = PropKey.str "Err" ∨ p.1 = PropKey.str "Some" ∨
          p.1 = PropKey.str "None") := by
  constructor
  · intro k hk
    rw [firstMatchingKey_eq_find] at hk
    have hcov : ∀ k' ∈ enumKeys (cases.map (·.key)), ∃ f, casesLookup cases k' = some f :=
      fun k' hk' => casesLookup_of_mem cases k' (mem_of_mem_enumKeys hk')
    rcases structuralScan_eq_some own proto cases _ k hk hcov with ⟨f, hf, hs⟩
    refine ⟨f, hf, ?_⟩
    rw [jsmatch_eq_structuralStep (.vobj own proto b1 b2 b3 b4 uv uev) cases none rfl,
      structuralStep_vobj, if_neg (by simp)]
    simp only [hs]
  · intro hnone p hp
    rw [firstMatchingKey_eq_find] at hnone
    have hs : structuralScan own proto cases (enumKeys (cases.map (·.key))) = none :=
      structuralScan_eq_none own proto cases _ hnone
    rw [jsmatch_eq_structuralStep (.vobj own proto b1 b2 b3 b4 uv uev) cases none rfl,
      structuralStep_vobj, if_neg (by simp)] at hp
    simp only [hs] at hp
    rcases h2 : casesLookup cases (.str "default") with _ | g
    · simp only [h2] at hp
      rw [discriminantStep_none] at hp
      exact Or.inr (capabilityStep_trace _ cases p hp)
    · simp only [h2] at hp
      simp at hp
      exact Or.inl (by rw [hp])

/-- Subject whose only "a" property lives on the prototype chain, not among
its own properties. -/
def protoOnlySubject : JSVal :=
  .vobj [] [(.str "a", .vnum 1)] false false false false .vundefined .vundefined

/-- Case table with the single key "a". -/
def protoOnlyCases : List (CaseEntry Nat) := [⟨.str "a", fun _ => 7⟩]

/-- Counterexample to C1 as stated: the claim says a key found only on the
subject's prototype chain selects no handler, but the source tests `key in
matcher`, which searches the prototype chain, so the "a" handler runs and
receives the inherited property value. -/
theorem match_prototype_key_selects_handler :
    jsmatch protoOnlySubject protoOnlyCases none
      = (.ok 7, [(PropKey.str "a", JSVal.vnum 1)]) := rfl

/-- Case table with the single key "b", used by the C1 witness. -/
def inheritedKeyCases : List (CaseEntry Nat) := [⟨.str "b", fun _ => 11⟩]

/-- Witness for C1 (amended): a subject inheriting "b" from its prototype
chain matches the "b" case, whose handler receives the inherited value. -/
theorem match_structural_scan_uses_in_operator_witness :
    ∃ f, casesLookup inheritedKeyCases (PropKey.str "b") = some f ∧
      jsmatch (.vobj [] [(.str "b", .vnum 5)] false false false false .vundefined .vundefined)
        inheritedKeyCases none
        = (.ok (f (JSVal.vnum 5)), [(PropKey.str "b", JSVal.vnum 5)]) :=
  (match_structural_scan_uses_in_operator [] [(.str "b", .vnum 5)] false false false false
    .vundefined .vundefined inheritedKeyCases).1 (PropKey.str "b") rfl

end Results

namespace Results

@[simp] lemma toPropKey_vstr (s : String) : toPropKey (.vstr s) = PropKey.str s := rfl

@[simp] lemma toPropKey_vnum (n : Int) : toPropKey (.vnum n) = PropKey.str (toString n) := rfl

@[simp] lemma toPropKey_vsym (i : Nat) : toPropKey (.vsym i) = PropKey.sym i := rfl

/-- C2 (amended): case-key lookup for primitive subjects and discriminant
values uses the JavaScript property key of the value: strings and symbols
match by identity, and a number is converted to its canonical decimal
string, so a number subject - or a number discriminant value - selects
exactly the handler stored under the string spelling of that number. -/
theorem match_scalar_canonical_key {R : Type} (cases : List (CaseEntry R)) :
    (∀ m : JSVal, isPrim m = true →
      casesLookup cases (toPropKey m) = none →
      casesLookup cases (.str "default") = none →
      jsmatch m cases none
        = (.error ("No case found for value: " ++ jsToString m), [])) ∧
    (∀ (n : Int) (f : JSVal → R), casesLookup cases (.str (toString n)) = some f →
      jsmatch (.vnum n) cases none
        = (.ok (f .vundefined), [(PropKey.str (toString n), .vundefined)])) ∧
    (∀ (s : String) (f : JSVal → R), casesLookup cases (.str s) = some f →
      jsmatch (.vstr s) cases none
        = (.ok (f .vundefined), [(PropKey.str s, .vundefined)])) ∧
    (∀ (i : Nat) (f : JSVal → R), casesLookup cases (.sym i) = some f →
      jsmatch (.vsym i) cases none
        = (.ok (f .vundefined), [(PropKey.sym i, .vundefined)])) ∧
    (∀ (own proto : List (PropKey × JSVal)) (b1 b2 b3 b4 : Bool) (uv uev : JSVal)
        (d : PropKey) (n : Int) (f : JSVal → R),
      keyTruthy (some d) = true →
      getProp own proto d = .vnum n →
      casesLookup cases (.str (toString n)) = some f →
      jsmatch (.vobj own proto b1 b2 b3 b4 uv uev) cases (some d)
        = (.ok (f (.vobj own proto b1 b2 b3 b4 uv uev)),
           [(PropKey.str (toString n), .vobj own proto b1 b2 b3 b4 uv uev)])) := by
  refine ⟨fun m hm h0 hd1 => ?_, fun n f hf => ?_, fun s f hf => ?_, fun i f hf => ?_,
    fun own proto b1 b2 b3 b4 uv uev d n f hd hdv hf => ?_⟩
  · rw [jsmatch_prim m cases none hm, h0, hd1]
  · rw [jsmatch_prim (.vnum n) cases none rfl, toPropKey_vnum, hf]
  · rw [jsmatch_prim (.vstr s) cases none rfl, toPropKey_vstr, hf]
  · rw [jsmatch_prim (.vsym i) cases none rfl, toPropKey_vsym, hf]
  · rw [jsmatch_eq_structuralStep (.vobj own proto b1 b2 b3 b4 uv uev) cases (some d) rfl,
      structuralStep_vobj, if_pos hd, discriminantStep_vobj, if_pos hd, hdv,
      toPropKey_vnum, hf]

/-- Case table whose single entry is stored under the string key "42" - at
the source level, `{42: ...}` and `{"42": ...}` build this same object. -/
def stringKeyCases : List (CaseEntry Nat) := [⟨.str "42", fun _ => 7⟩]

/-- Counterexample to C2 as stated: the claim says a number subject never
selects a handler whose key is the string spelling of that number, but the
number subject 42 selects the handler stored under "42", because property
access converts the number to its canonical string key. -/
theorem match_number_selects_string_spelled_key :
    jsmatch (.vnum 42) stringKeyCases none
      = (.ok 7, [(PropKey.str "42", .vundefined)]) := rfl

/-- Case table keyed by the canonical spelling of a negative number. -/
def negKeyCases : List (CaseEntry Nat) := [⟨.str "-3", fun _ => 9⟩]

/-- Witness for C2 (amended): the number subject -3 selects the handler
stored under its canonical string spelling "-3". -/
theorem match_scalar_canonical_key_witness :
    jsmatch (.vnum (-3)) negKeyCases none
      = (.ok 9, [(PropKey.str "-3", .vundefined)]) :=
  (match_scalar_canonical_key negKeyCases).2.1 (-3) (fun _ => 9) rfl

/-- C3 (amended): for a non-null object subject without a discriminant,
when no case key is found on the subject and no default case exists, the
structural step does not fail: control continues to the Result/Option shape
tests (`capabilityStep`); if additionally none of the capability predicates
isOk/isErr/isSome/isNone is present-and-true on the subject, `match` fails
with the final error, whose message in the source is
`Invalid matcher or missing case`. -/
theorem match_structural_fallthrough {R : Type} (own proto : List (PropKey × JSVal))
    (b1 b2 b3 b4 : Bool) (uv uev : JSVal) (cases : List (CaseEntry R))
    (hscan : firstMatchingKey own proto (cases.map (·.key)) = none)
    (hdef : casesLookup cases (.str "default") = none) :
    jsmatch (.vobj own proto b1 b2 b3 b4 uv uev) cases none
      = capabilityStep (.vobj own proto b1 b2 b3 b4 uv uev) cases ∧
    ((keyIn own proto (.str "isOk") && b1) = false →
     (keyIn own proto (.str "isErr") && b2) = false →
     (keyIn own proto (.str "isSome") && b3) = false →
     (keyIn own proto (.str "isNone") && b4) = false →
      jsmatch (.vobj own proto b1 b2 b3 b4 uv uev) cases none
        = (.error "Invalid matcher or missing case", [])) := by
  have hscan' : structuralScan own proto cases (enumKeys (cases.map (·.key))) = none :=
    structuralScan_eq_none own proto cases _ hscan
  have hmain : jsmatch (.vobj own proto b1 b2 b3 b4 uv uev) cases none
      = capabilityStep (.vobj own proto b1 b2 b3 b4 uv uev) cases :=
    jsmatch_obj_fallthrough own proto b1 b2 b3 b4 uv uev cases hscan hdef
  refine ⟨hmain, fun h1 h2 h3 h4 => ?_⟩
  rw [hmain, capabilityStep_vobj, if_neg (by simp [h1]), if_neg (by simp [h2]),
    if_neg (by simp [h3]), if_neg (by simp [h4])]

/-- Plain object subject with no properties at all (as built by
`Object.create(null)`): no own properties, empty prototype chain, none of
the capability methods. -/
def emptySubject : JSVal := .vobj [] [] false false false false .vundefined .vundefined

/-- Case table whose only key, "x", matches nothing on `emptySubject`. -/
def xCases : List (CaseEntry Nat) := [⟨.str "x", fun _ => 1⟩]

/-- Counterexample to C3 as stated: the final failure does occur, but the
error message in the source is `Invalid matcher or missing case`, not the
`no matching case found for subject` the claim quotes. -/
theorem match_final_error_message :
    jsmatch emptySubject xCases none
      = (.error "Invalid matcher or missing case", []) ∧
    "Invalid matcher or missing case" ≠ "no matching case found for subject" :=
  ⟨rfl, by decide⟩

/-- Witness for C3 (amended): the empty subject with the unmatched case
table reaches the final error with its source message. -/
theorem match_structural_fallthrough_witness :
    jsmatch emptySubject xCases none
      = (.error "Invalid matcher or missing case", []) :=
  (match_structural_fallthrough [] [] false false false false .vundefined .vundefined
    xCases rfl rfl).2 rfl rfl rfl rfl

end Results

namespace Results

/-- C5: when the dispatcher reaches the Result/Option shape tests (subject
is a non-null object, no truthy discriminant, the structural scan found no
key and no default case exists), the capability predicates are tested in the
fixed order isOk, isErr, isSome, isNone; for the first predicate that is
present on the subject and returns true, the matching handler (Ok, Err,
Some, None) is required - its absence fails with `Missing case for
<variant>` - and is invoked with the unwrapped value (Ok, Some), the
unwrapped error (Err), or no argument (None). -/
theorem match_capability_fixed_order {R : Type} (own proto : List (PropKey × JSVal))
    (b1 b2 b3 b4 : Bool) (uv uev : JSVal) (cases : List (CaseEntry R))
    (hscan : firstMatchingKey own proto (cases.map (·.key)) = none)
    (hdef : casesLookup cases (.str "default") = none) :
    ((keyIn own proto (.str "isOk") && b1) = true →
      (∀ f, casesLookup cases (.str "Ok") = some f →
        jsmatch (.vobj own proto b1 b2 b3 b4 uv uev) cases none
          = (.ok (f uv), [(PropKey.str "Ok", uv)])) ∧
      (casesLookup cases (.str "Ok") = none →
        jsmatch (.vobj own proto b1 b2 b3 b4 uv uev) cases none
          = (.error "Missing case for Ok", []))) ∧
    ((keyIn own proto (.str "isOk") && b1) = false →
      ((keyIn own proto (.str "isErr") && b2) = true →
        (∀ f, casesLookup cases (.str "Err") = some f →
          jsmatch (.vobj own proto b1 b2 b3 b4 uv uev) cases none
            = (.ok (f uev), [(PropKey.str "Err", uev)])) ∧
        (casesLookup cases (.str "Err") = none →
          jsmatch (.vobj own proto b1 b2 b3 b4 uv uev) cases none
            = (.error "Missing case for Err", []))) ∧
      ((keyIn own proto (.str "isErr") && b2) = false →
        ((keyIn own proto (.str "isSome") && b3) = true →
          (∀ f, casesLookup cases (.str "Some") = some f →
            jsmatch (.vobj own proto b1 b2 b3 b4 uv uev) cases none
              = (.ok (f uv), [(PropKey.str "Some", uv)])) ∧
          (casesLookup cases (.str "Some") = none →
            jsmatch (.vobj own proto b1 b2 b3 b4 uv uev) cases none
              = (.error "Missing case for Some", []))) ∧
        ((keyIn own proto (.str "isSome") && b3) = false →
          (keyIn own proto (.str "isNone") && b4) = true →
          (∀ f, casesLookup cases (.str "None") = some f →
            jsmatch (.vobj own proto b1 b2 b3 b4 uv uev) cases none
              = (.ok (f .vundefined), [(PropKey.str "None", .vundefined)])) ∧
          (casesLookup cases (.str "None") = none →
            jsmatch (.vobj own proto b1 b2 b3 b4 uv uev) cases none
              = (.error "Missing case for None", []))))) := by
  have hmain : jsmatch (.vobj own proto b1 b2 b3 b4 uv uev) cases none
      = capabilityStep (.vobj own proto b1 b2 b3 b4 uv uev) cases :=
    jsmatch_obj_fallthrough own proto b1 b2 b3 b4 uv uev cases hscan hdef
  rw [hmain, capabilityStep_vobj]
  refine ⟨fun hOk => ⟨fun f hf => ?_, fun hf => ?_⟩,
    fun hnOk => ⟨fun hErr => ⟨fun f hf => ?_, fun hf => ?_⟩,
      fun hnErr => ⟨fun hSome => ⟨fun f hf => ?_, fun hf => ?_⟩,
        fun hnSome hNone => ⟨fun f hf => ?_, fun hf => ?_⟩⟩⟩⟩
  · rw [if_pos hOk, hf]
  · rw [if_pos hOk, hf]
  · rw [if_neg (by simp [hnOk]), if_pos hErr, hf]
  · rw [if_neg (by simp [hnOk]), if_pos hErr, hf]
  · rw [if_neg (by simp [hnOk]), if_neg (by simp [hnErr]), if_pos hSome, hf]
  · rw [if_neg (by simp [hnOk]), if_neg (by simp [hnErr]), if_pos hSome, hf]
  · rw [if_neg (by simp [hnOk]), if_neg (by simp [hnErr]), if_neg (by simp [hnSome]),
      if_pos hNone, hf]
  · rw [if_neg (by simp [hnOk]), if_neg (by simp [hnErr]), if_neg (by simp [hnSome]),
      if_pos hNone, hf]

/-- Flattened prototype chain of the `Ok`/`Err` class instances: the methods
of the class, stored as function-valued properties. -/
def resultProtoProps : List (PropKey × JSVal) :=
  [(.str "isOk", .vfun 0), (.str "isErr", .vfun 1), (.str "unwrap", .vfun 2),
   (.str "value", .vfun 3), (.str "map", .vfun 4), (.str "mapErr", .vfun 5),
   (.str "flatMap", .vfun 6), (.str "unwrapErr", .vfun 7), (.str "unwrapOr", .vfun 8),
   (.str "unwrapOrElse", .vfun 9), (.str "orElse", .vfun 10), (.str "ok", .vfun 11)]

/-- The object `Ok(5)`: own property `_value`, the Result methods on the
prototype chain, `isOk()` true, `isErr()` false, `unwrap()` returning 5. -/
def okSubject : JSVal :=
  .vobj [(.str "_value", .vnum 5)] resultProtoProps true false false false (.vnum 5) .vundefined

/-- Handler table `{Ok: v => v*2, Err: _ => 0}` with numeric results. -/
def okErrCases : List (CaseEntry Nat) :=
  [⟨.str "Ok", fun v => match v with | .vnum n => n.toNat * 2 | _ => 0⟩,
   ⟨.str "Err", fun _ => 0⟩]

/-- Witness for C5: `match(Ok(5), {Ok: v => v*2, Err: _ => 0})` falls
through the structural scan (no case key is a property of the Ok instance),
detects `isOk`, and invokes the Ok handler with the unwrapped 5, giving 10. -/
theorem match_capability_fixed_order_witness :
    jsmatch okSubject okErrCases none = (.ok 10, [(PropKey.str "Ok", JSVal.vnum 5)]) :=
  ((match_capability_fixed_order [(.str "_value", .vnum 5)] resultProtoProps
    true false false false (.vnum 5) .vundefined okErrCases rfl rfl).1 rfl).1
    (fun v => match v with | .vnum n => n.toNat * 2 | _ => 0) rfl

/-- C7 (amended): for a non-null object subject with a truthy (in particular
non-empty) discriminant field name, the dispatcher reads
`subject[discriminant]`, converts it to a property key, and looks the case
table up there: a present handler is invoked with the whole subject;
otherwise `cases.default` is invoked with the whole subject; otherwise
`match` throws naming the unmatched discriminant value. -/
theorem match_discriminant_dispatch {R : Type} (own proto : List (PropKey × JSVal))
    (b1 b2 b3 b4 : Bool) (uv uev : JSVal) (cases : List (CaseEntry R)) (d : PropKey)
    (hd : keyTruthy (some d) = true) :
    (∀ f, casesLookup cases (toPropKey (getProp own proto d)) = some f →
      jsmatch (.vobj own proto b1 b2 b3 b4 uv uev) cases (some d)
        = (.ok (f (.vobj own proto b1 b2 b3 b4 uv uev)),
           [(toPropKey (getProp own proto d), .vobj own proto b1 b2 b3 b4 uv uev)])) ∧
    (casesLookup cases (toPropKey (getProp own proto d)) = none →
      (∀ f, casesLookup cases (.str "default") = some f →
        jsmatch (.vobj own proto b1 b2 b3 b4 uv uev) cases (some d)
          = (.ok (f (.vobj own proto b1 b2 b3 b4 uv uev)),
             [(PropKey.str "default", .vobj own proto b1 b2 b3 b4 uv uev)])) ∧
      (casesLookup cases (.str "default") = none →
        jsmatch (.vobj own proto b1 b2 b3 b4 uv uev) cases (some d)
          = (.error ("No case found for discriminant value: "
              ++ jsToString (getProp own proto d)), []))) := by
  rw [jsmatch_eq_structuralStep (.vobj own proto b1 b2 b3 b4 uv uev) cases (some d) rfl,
    structuralStep_vobj, if_pos hd, discriminantStep_vobj, if_pos hd]
  refine ⟨fun f hf => ?_, fun h0 => ⟨fun f hf => ?_, fun hdef => ?_⟩⟩
  · rw [hf]
  · rw [h0, hf]
  · rw [h0, hdef]

/-- Object subject whose only own property is stored under the empty-string
key, holding "k". -/
def emptyDiscSubject : JSVal :=
  .vobj [(.str "", .vstr "k")] [] false false false false .vundefined .vundefined

/-- Case table with the single key "k". -/
def kCases : List (CaseEntry Nat) := [⟨.str "k", fun _ => 3⟩]

/-- Counterexample to C7 as stated: the empty string is a legal field name
and `subject[""]` is "k" with `cases["k"]` present, so the claim requires
the "k" handler to run with the whole subject - but the source's guard
`discriminant && ...` treats the empty-string discriminant as absent, the
discriminated-union step is skipped, and the call ends in the final error
with no handler invoked. -/
theorem match_empty_discriminant_skips_dispatch :
    jsmatch emptyDiscSubject kCases (some (PropKey.str ""))
      = (.error "Invalid matcher or missing case", []) := rfl

/-- The shape subject `{type: "circle", radius: 10}` (capability-free plain
object). -/
def shapeSubject : JSVal :=
  .vobj [(.str "type", .vstr "circle"), (.str "radius", .vnum 10)] []
    false false false false .vundefined .vundefined

/-- Handler table for the shape example, keyed by the discriminant values. -/
def shapeCases : List (CaseEntry Nat) :=
  [⟨.str "circle", fun _ => 314⟩, ⟨.str "rectangle", fun _ => 0⟩]

/-- Witness for C7 (amended): with discriminant "type", the circle shape
selects the "circle" handler, which receives the whole subject. -/
theorem match_discriminant_dispatch_witness :
    jsmatch shapeSubject shapeCases (some (PropKey.str "type"))
      = (.ok 314, [(PropKey.str "circle", shapeSubject)]) :=
  (match_discriminant_dispatch [(.str "type", .vstr "circle"), (.str "radius", .vnum 10)]
    [] false false false false .vundefined .vundefined shapeCases (PropKey.str "type") rfl).1
    (fun _ => 314) rfl

end Results
